import Mathlib

/-!
# RankForge dashboard controller (`app/static/7script.js`)

A shallow embedding of the browser script and the properties its specification states.

Conventions of the embedding.

* A JavaScript value that reaches the script (a parsed JSON body, a `dataset` entry, a
  missing property) is a `JSValue`. The script only prints numbers and tests them for
  zero, so a number is kept as the text JavaScript prints for it (`"0"` for both zeros,
  `"1e+21"`, `"0.5"`); strings are Lean strings.
* A handler that awaits a promise is split where the source awaits: the part that runs
  when the handler is called keeps the name of the source function, and the part that
  runs when the awaited value arrives has the suffix `Then`. What the outside world
  answers (`FetchOutcome`, `AuthOutcome`) is an argument of the second part. Between two
  awaits a handler runs to completion, as the single-threaded event loop has it.
* The page is the record `App`: the two script variables, the text or markup last written
  into each element the script touches, and the list of calls the script has made to the
  outside (`Effect`), in order. Markup is kept as the string assigned to `innerHTML`.
* `editorState.content` is covered when it is absent or an object (`Content`); the two
  handlers that take it from a response give `none` for any other value.
* An input element is kept as its value, which the script reads back as written. The text
  area of the editor is kept as its raw value and read through `textareaRead`, which
  normalises line breaks as `textarea.value` does.
* Left out: `e.preventDefault()`, the label of a tab (`pageNameFromFilename`), the
  dispatch of document clicks with its `prompt`, and the callback that empties the
  settings status three seconds after a save.
-/

namespace RankForge

/-! ## JavaScript values -/

/-- A JavaScript value as the script sees it: `undefined`, or what `JSON.parse` builds. A
number is given by the text JavaScript prints for it, which tells numbers apart except
the two zeros. An object is the list of its own properties in enumeration order. -/
inductive JSValue where
  | undefined
  | null
  | bool (b : Bool)
  | num (printed : String)
  | str (s : String)
  | arr (items : List JSValue)
  | obj (fields : List (String × JSValue))

/-- A thrown value; the script only ever reads its `message`. -/
structure JSError where
  message : String

namespace JSValue

/-- The truth value of a value in a condition (`if (v)`, `a || b`, `a && b`, `!v`). -/
def truthy : JSValue → Bool
  | undefined => false
  | null => false
  | bool b => b
  | num printed => printed != "0"
  | str s => s != ""
  | arr _ => true
  | obj _ => true

mutual
/-- The string a value becomes inside a template literal or `new Error(v)`. -/
def toStr : JSValue → String
  | undefined => "undefined"
  | null => "null"
  | bool true => "true"
  | bool false => "false"
  | num printed => printed
  | str s => s
  | arr items => joinItems items
  | obj _ => "[object Object]"
termination_by structural v => v
/-- The comma-joined elements of an array; `null` and `undefined` elements are empty. -/
def joinItems : List JSValue → String
  | [] => ""
  | x :: rest =>
    (match x with
      | undefined => ""
      | null => ""
      | v => toStr v) ++
    (match rest with
      | [] => ""
      | _ => "," ++ joinItems rest)
termination_by structural l => l
end

/-- The first property called `name` in a property list, `undefined` when there is none. -/
def lookup : List (String × JSValue) → String → JSValue
  | [], _ => undefined
  | (k, v) :: rest, name => if k = name then v else lookup rest name

/-- The message of the TypeError raised by reading a property of `undefined` or `null`.
The wording belongs to the engine; nothing below depends on it. -/
def typeErrorMessage (v : JSValue) (name : String) : String :=
  "Cannot read properties of " ++ toStr v ++ " (reading \"" ++ name ++ "\")"

/-- Property read `v.name`, for the property names the script reads from response bodies
(none of them is defined on a built-in prototype): it throws on `undefined` and `null`,
looks the name up in an object, and is `undefined` on every other value. -/
def getProp (v : JSValue) (name : String) : Except JSError JSValue :=
  match v with
  | undefined => .error ⟨typeErrorMessage v name⟩
  | null => .error ⟨typeErrorMessage v name⟩
  | obj fields => .ok (lookup fields name)
  | _ => .ok undefined

/-- The value of `a || b`. -/
def orElse (a b : JSValue) : JSValue :=
  if truthy a then a else b

/-- Strict equality with a string literal: `v === "lit"`. -/
def isStr (v : JSValue) (lit : String) : Bool :=
  match v with
  | str s => s == lit
  | _ => false

/-- A value is `undefined` or `null`. -/
def nullish : JSValue → Bool
  | undefined => true
  | null => true
  | _ => false

end JSValue

open JSValue

/-! ## The outside world -/

/-- What a `fetch` call and the `response.json()` that follows it deliver. -/
inductive FetchOutcome where
  /-- The `fetch` promise rejects (transport failure). -/
  | rejected (error : JSError)
  /-- A response arrives; `ok` is `response.ok`, `body` is what `response.json()` gives:
  the parsed value, or the rejection when the body is not JSON. -/
  | response (ok : Bool) (body : Except JSError JSValue)

/-- A call the script makes to the outside, with the arguments that matter. -/
inductive Effect where
  /-- A call of `fetch`: method, path, `Authorization` header, and the value passed to
  `JSON.stringify` for the body, if there is a body. -/
  | fetch (method url authorization : String) (body : Option JSValue)
  | signInWithEmailAndPassword (email password : String)
  | createUserWithEmailAndPassword (email password : String)
  | signInWithPopup
  | getIdToken
  /-- The `setInterval` of `pollDeploymentStatus`: a poller is started. -/
  | setInterval (taskId businessName : JSValue) (ms : Nat)
  /-- The `setTimeout` of `handleSaveSettings`. -/
  | setTimeout (ms : Nat)
  | consoleError

/-- A tab of the editor: the `data-filename` of the element and whether it carries the
class `active`. -/
structure Tab where
  filename : String
  active : Bool

/-- The `content` property of `editorState`: absent (`undefined`, or `null` when `isNull`),
or an object mapping file names to text. -/
inductive Content where
  | absent (isNull : Bool)
  | files (entries : List (String × JSValue))

/-- The script variable `editorState`, by the properties the script reads. -/
structure EditorState where
  businessName : JSValue
  niche : JSValue
  location : JSValue
  content : Content
  site_structure : JSValue
  sanity_site_id : JSValue

/-- The page: script variables, element contents, and the calls made so far. -/
structure App where
  currentIdToken : Option String
  editorState : EditorState
  /-- `dashboardContainer` carries the class `hidden`. -/
  dashboardHidden : Bool
  /-- `authContainer` carries the class `hidden`. -/
  authHidden : Bool
  welcomeMessage : String
  emailInput : String
  passwordInput : String
  authError : String
  nicheInput : String
  locationInput : String
  resultsContainer : String
  assetStatus : String
  assetList : String
  netlifyApiKeyInput : String
  settingsStatus : String
  editorTabs : List Tab
  /-- The raw value of `contentEditorTextarea`: what was last assigned to it or typed into
  it. The script reads it through `textareaRead`. -/
  contentEditorTextarea : String
  /-- `document.body` carries the class `modal-open`. -/
  modalOpen : Bool
  /-- `editorModal` carries the class `hidden`. -/
  editorModalHidden : Bool
  /-- Calls made to the outside, oldest first. -/
  log : List Effect
  /-- Number of `getIdToken` promises not yet resolved. -/
  pendingTokens : Nat
  /-- Number of times `loadUserSites` has been entered (bookkeeping only). -/
  loadUserSitesCalls : Nat

/-- The `editorState = {}` the script starts with. -/
def EditorState.empty : EditorState :=
  { businessName := undefined, niche := undefined, location := undefined,
    content := .absent false, site_structure := undefined, sanity_site_id := undefined }

/-- The page when the script has just run: `currentIdToken = null`, `editorState = {}`,
nothing written, nothing called. The two containers start hidden or shown as the markup
says, which the arguments give. -/
def App.init (dashboardHidden authHidden editorModalHidden : Bool) : App :=
  { currentIdToken := none, editorState := EditorState.empty,
    dashboardHidden := dashboardHidden, authHidden := authHidden,
    welcomeMessage := "", emailInput := "", passwordInput := "", authError := "",
    nicheInput := "", locationInput := "", resultsContainer := "", assetStatus := "",
    assetList := "", netlifyApiKeyInput := "", settingsStatus := "",
    editorTabs := [], contentEditorTextarea := "", modalOpen := false,
    editorModalHidden := editorModalHidden, log := [], pendingTokens := 0,
    loadUserSitesCalls := 0 }

/-- The condition `!currentIdToken` is false: the token is neither `null` nor empty. -/
def tokenTruthy : Option String → Bool
  | none => false
  | some t => t != ""

/-- The header value written as a template literal with `currentIdToken` after
`Bearer `. -/
def bearer : Option String → String
  | none => "Bearer null"
  | some t => "Bearer " ++ t

/-- The status requests (`GET /api/v1/deployment-status/...`) among the calls made. -/
def isStatusGet : Effect → Bool
  | .fetch "GET" url _ _ => "/api/v1/deployment-status/".toList.isPrefixOf url.toList
  | _ => false

/-- A poller was started. -/
def isSetInterval : Effect → Bool
  | .setInterval _ _ _ => true
  | _ => false

/-! ## Requests and their answers -/

/-- The steps every handler but the poller takes on an answer:
`response = await fetch(..)`, `data = await response.json()`, and
`if (!response.ok) throw new Error(data.detail || fallback)`. The result is `data`, or
what is thrown. -/
def awaitJson (o : FetchOutcome) (fallback : String) : Except JSError JSValue :=
  match o with
  | .rejected e => .error e
  | .response _ (.error e) => .error e
  | .response ok (.ok data) =>
    if ok then .ok data
    else
      match getProp data "detail" with
      | .error e => .error e
      | .ok detail => .error ⟨toStr (orElse detail (str fallback))⟩

/-! ## Settings and asset loaders -/

/-- The function `loadUserSettings`, up to its `await fetch(..)`. -/
def loadUserSettings (s : App) : App :=
  if !tokenTruthy s.currentIdToken then s
  else
    { s with log := s.log ++
        [.fetch "GET" "/api/v1/user/settings" (bearer s.currentIdToken) none] }

/-- The rest of `loadUserSettings`, once its request is answered. -/
def loadUserSettingsThen (o : FetchOutcome) (s : App) : App :=
  match o with
  | .rejected _ => { s with log := s.log ++ [.consoleError] }
  | .response _ (.error _) => { s with log := s.log ++ [.consoleError] }
  | .response false (.ok _) => s
  | .response true (.ok data) =>
    match getProp data "netlify_api_key" with
    | .error _ => { s with log := s.log ++ [.consoleError] }
    | .ok key => if truthy key then { s with netlifyApiKeyInput := toStr key } else s

/-- The function `handleSaveSettings`, up to its `await fetch(..)`. -/
def handleSaveSettings (s : App) : App :=
  let apiKey := s.netlifyApiKeyInput
  if apiKey == "" || !tokenTruthy s.currentIdToken then s
  else
    { s with
      settingsStatus := "Saving...",
      log := s.log ++
        [.fetch "POST" "/api/v1/user/settings" (bearer s.currentIdToken)
          (some (obj [("netlify_api_key", str apiKey)]))] }

/-- The rest of `handleSaveSettings`, once its request is answered. -/
def handleSaveSettingsThen (o : FetchOutcome) (s : App) : App :=
  let s :=
    match awaitJson o "Failed to save." with
    | .ok _ => { s with settingsStatus := "Settings saved successfully!" }
    | .error error => { s with settingsStatus := "Error: " ++ error.message }
  { s with log := s.log ++ [.setTimeout 3000] }

/-- One `<li>` of the asset list, as `renderUserSites` writes it for `site`. -/
def siteItem (site : JSValue) : Except JSError String := do
  let business_name ← getProp site "business_name"
  let niche ← getProp site "niche"
  let location ← getProp site "location"
  let sanity_site_id ← getProp site "sanity_site_id"
  pure ("\n                <li class=\"site-item\">\n                    <div>\n" ++
    "                        <strong>" ++ toStr business_name ++ "</strong><br>\n" ++
    "                        <small>" ++ toStr niche ++ " in " ++ toStr location ++
    "</small>\n                    </div>\n" ++
    "                    <div class=\"site-actions\">\n" ++
    "                        <button class=\"edit-site-btn\" data-site-id=\"" ++
    toStr sanity_site_id ++ "\">Edit Content</button>\n" ++
    "                    </div>\n                </li>\n            ")

/-- The loop of `renderUserSites`: `html` after the items of `sites`. -/
def siteItems : List JSValue → String → Except JSError String
  | [], html => pure html
  | site :: rest, html => do
    let item ← siteItem site
    siteItems rest (html ++ item)

/-- The function `renderUserSites`. A body that is not an array has no `forEach`, and is
empty only when its `length` is `0`. -/
def renderUserSites (sites : JSValue) (s : App) : Except JSError App :=
  let noContent : App :=
    { s with assetList := "<li>No content found in CMS. Generate some above!</li>" }
  match sites with
  | undefined => .error ⟨typeErrorMessage sites "length"⟩
  | null => .error ⟨typeErrorMessage sites "length"⟩
  | arr [] => .ok noContent
  | arr items => do
    let html ← siteItems items ""
    pure { s with assetList := html }
  | str "" => .ok noContent
  | obj fields =>
    match lookup fields "length" with
    | num "0" => .ok noContent
    | _ => .error ⟨"sites.forEach is not a function"⟩
  | _ => .error ⟨"sites.forEach is not a function"⟩

/-- The function `loadUserSites`, up to its `await fetch(..)`: what a caller that does not
await it runs at once. -/
def loadUserSites (s : App) : App :=
  let s := { s with loadUserSitesCalls := s.loadUserSitesCalls + 1 }
  if !tokenTruthy s.currentIdToken then s
  else
    { s with
      assetList := "<li>Loading sites...</li>",
      log := s.log ++ [.fetch "GET" "/api/v1/sites" (bearer s.currentIdToken) none] }

/-- The rest of `loadUserSites`, once its request is answered. -/
def loadUserSitesThen (o : FetchOutcome) (s : App) : App :=
  match (do
    let sites ← awaitJson o "Failed to load sites."
    renderUserSites sites s) with
  | .ok s1 => s1
  | .error error =>
    { s with assetList := "<li class=\"error-message\">" ++ error.message ++ "</li>" }

/-! ## The deployment poller -/

/-- One call of `pollDeploymentStatus`: its two arguments, and whether
`clearInterval(intervalId)` has run. -/
structure Poller where
  taskId : JSValue
  businessName : JSValue
  cleared : Bool

/-- The poller after `clearInterval(intervalId)`. -/
def Poller.clear (p : Poller) : Poller :=
  { p with cleared := true }

/-- The function `pollDeploymentStatus`: it only starts the interval. -/
def pollDeploymentStatus (taskId businessName : JSValue) (s : App) : Poller × App :=
  (⟨taskId, businessName, false⟩,
    { s with log := s.log ++ [.setInterval taskId businessName 5000] })

/-- The markup of the success message. -/
def successMessage (businessName : JSValue) : String :=
  "<p><strong>Success!</strong> Content for \"" ++ toStr businessName ++
    "\" pushed to CMS.</p>"

/-- The markup of the line appended for a nested CMS error. -/
def cmsErrorLine (error : JSValue) : String :=
  "<p class=\"error-message\"><strong>CMS Error:</strong> " ++ toStr error ++ "</p>"

/-- The markup of the failure message. -/
def failureMessage (businessName error : JSValue) : String :=
  "<p class=\"error-message\"><strong>Failed!</strong> Task for \"" ++
    toStr businessName ++ "\" failed: " ++ toStr error ++ "</p>"

/-- The interval fires: the callback runs up to its `await fetch(..)`. A cleared interval
does not fire. -/
def Poller.fire (p : Poller) (s : App) : App :=
  if p.cleared then s
  else
    { s with log := s.log ++
        [.fetch "GET" ("/api/v1/deployment-status/" ++ toStr p.taskId)
          (bearer s.currentIdToken) none] }

/-- The `try` block of the interval callback, from the answer on. No step that can throw
comes after a write to the page, so a throw leaves the page as it was. -/
def Poller.attempt (p : Poller) (o : FetchOutcome) (s : App) :
    Except JSError (Poller × App) :=
  match o with
  | .rejected e => .error e
  | .response false _ => .ok (p.clear, s)
  | .response true (.error e) => .error e
  | .response true (.ok data) => do
    let status ← getProp data "status"
    if isStr status "complete" then
      let result ← getProp data "result"
      let resultHTML := successMessage p.businessName
      let sanity_result ← getProp result "sanity_result"
      let nested ← if truthy sanity_result then getProp sanity_result "error"
        else pure sanity_result
      let resultHTML :=
        if truthy nested then resultHTML ++ cmsErrorLine nested else resultHTML
      pure (p.clear, loadUserSites { s with assetStatus := resultHTML })
    else if isStr status "failed" then
      let error ← getProp data "error"
      pure (p.clear, { s with assetStatus := failureMessage p.businessName error })
    else
      pure (p, s)

/-- The answer to a status request arrives: the `try` block, and the `catch` that clears
the interval. -/
def Poller.settle (o : FetchOutcome) (p : Poller) (s : App) : Poller × App :=
  match p.attempt o s with
  | .ok r => r
  | .error _ => (p.clear, s)

/-- One poll tick whose request is answered by `o` before anything else happens. -/
def Poller.tick (o : FetchOutcome) (ps : Poller × App) : Poller × App :=
  if ps.1.cleared then ps else ps.1.settle o (ps.1.fire ps.2)

/-- What can happen to a running poller: its interval comes due, or the answer to one of
its requests arrives. -/
inductive PollEvent where
  | due
  | answered (o : FetchOutcome)

/-- One event of a poller. -/
def Poller.step (ps : Poller × App) : PollEvent → Poller × App
  | .due => (ps.1, ps.1.fire ps.2)
  | .answered o => ps.1.settle o ps.2

/-- A sequence of events of a poller. -/
def Poller.run (evs : List PollEvent) (ps : Poller × App) : Poller × App :=
  evs.foldl Poller.step ps

/-- A sequence of ticks, each answered before the next. -/
def Poller.ticks (os : List FetchOutcome) (ps : Poller × App) : Poller × App :=
  os.foldl (fun acc o => Poller.tick o acc) ps

/-- Number of status requests issued so far. -/
def statusGets (s : App) : Nat :=
  (s.log.filter isStatusGet).length

/-- The answer is a response with a non-success HTTP status. -/
def FetchOutcome.nonSuccess : FetchOutcome → Bool
  | .response false _ => true
  | _ => false

/-- The answer makes the callback throw before it has looked at a status: the request
fails, the body is not JSON, or the body is `null`. -/
def FetchOutcome.raises : FetchOutcome → Bool
  | .rejected _ => true
  | .response true (.error _) => true
  | .response true (.ok data) => nullish data
  | _ => false

/-- The answer is a successful response whose body has the status `lit`. -/
def FetchOutcome.statusIs (lit : String) : FetchOutcome → Bool
  | .response true (.ok (obj fields)) => isStr (lookup fields "status") lit
  | _ => false

/-- The answers the specification calls terminal. -/
def FetchOutcome.terminal (o : FetchOutcome) : Bool :=
  o.nonSuccess || o.statusIs "complete" || o.statusIs "failed" || o.raises

/-! ## Session controller -/

/-- The signed-in user handed to the auth listener; the script reads `user.email`. -/
structure User where
  email : JSValue

/-- The listener passed to `auth.onAuthStateChanged`, up to the call of
`user.getIdToken()`. -/
def onAuthStateChanged (user : Option User) (s : App) : App :=
  match user with
  | some user =>
    { s with
      dashboardHidden := false,
      authHidden := true,
      welcomeMessage := "Welcome, " ++ toStr user.email,
      log := s.log ++ [.getIdToken],
      pendingTokens := s.pendingTokens + 1 }
  | none =>
    { s with dashboardHidden := true, authHidden := false, currentIdToken := none }

/-- The callback given to `user.getIdToken().then(..)`. -/
def onIdToken (token : String) (s : App) : App :=
  loadUserSites (loadUserSettings { s with currentIdToken := some token })

/-- What the identity provider can do to the session: report an auth state change, or
settle a `getIdToken` promise started by an earlier signed-in change. -/
inductive SessionEvent where
  | authChanged (user : Option User)
  | tokenResolved (token : String)
  | tokenRejected

/-- One session event. A promise can settle only while one is pending; a rejected one has
no handler. -/
def sessionStep (s : App) : SessionEvent → App
  | .authChanged user => onAuthStateChanged user s
  | .tokenResolved token =>
    if s.pendingTokens = 0 then s
    else onIdToken token { s with pendingTokens := s.pendingTokens - 1 }
  | .tokenRejected =>
    if s.pendingTokens = 0 then s
    else { s with pendingTokens := s.pendingTokens - 1 }

/-- A sequence of session events. -/
def sessionRun (evs : List SessionEvent) (s : App) : App :=
  evs.foldl sessionStep s

/-- Whether a user is signed in after the events: what the most recent auth state change
said, and nobody before the first one. -/
def signedIn (evs : List SessionEvent) : Bool :=
  evs.foldl (fun acc e =>
    match e with
    | .authChanged user => user.isSome
    | _ => acc) false

/-- The error object of a rejected auth promise. -/
structure AuthError where
  code : String
  message : String

/-- How the identity provider settles a sign-in or account creation promise. -/
inductive AuthOutcome where
  | resolved
  | rejected (error : AuthError)

/-- The function `handleEmailLogin`, up to the call of `signInWithEmailAndPassword`. -/
def handleEmailLogin (s : App) : App :=
  { s with
    authError := "",
    log := s.log ++ [.signInWithEmailAndPassword s.emailInput s.passwordInput] }

/-- The `catch` callback of the creation promise in `handleEmailLogin`. -/
def onCreateRejected (err : AuthError) (s : App) : App :=
  { s with authError := err.message }

/-- The `catch` callback of the sign-in promise in `handleEmailLogin`, up to the call of
`createUserWithEmailAndPassword`; `email` and `password` are the values read when the
form was submitted. -/
def onSignInRejected (email password : String) (error : AuthError) (s : App) : App :=
  if error.code = "auth/user-not-found" then
    { s with log := s.log ++ [.createUserWithEmailAndPassword email password] }
  else
    { s with authError := error.message }

/-- A whole sign-in attempt: the form is submitted, the provider settles the sign-in with
`signIn`, and settles an account creation, if one is asked for, with `create`. -/
def emailLoginAttempt (signIn create : AuthOutcome) (s : App) : App :=
  let email := s.emailInput
  let password := s.passwordInput
  let s := handleEmailLogin s
  match signIn with
  | .resolved => s
  | .rejected error =>
    let s := onSignInRejected email password error s
    if error.code = "auth/user-not-found" then
      match create with
      | .resolved => s
      | .rejected err => onCreateRejected err s
    else s

/-- The function `handleGoogleLogin`, up to the call of `signInWithPopup`. -/
def handleGoogleLogin (s : App) : App :=
  { s with authError := "", log := s.log ++ [.signInWithPopup] }

/-- The `catch` callback of `handleGoogleLogin`. -/
def onPopupRejected (error : AuthError) (s : App) : App :=
  { s with authError := error.message }

/-! ## Analysis -/

/-- The markup of the analysis summary. -/
def analysisSummary (niche location score justification : JSValue) : String :=
  "<h3>Analysis for \"" ++ toStr niche ++ "\" in \"" ++ toStr location ++ "\"</h3>\n" ++
  "            <p><strong>Opportunity Score:</strong> " ++ toStr score ++ " / 100</p>\n" ++
  "            <p><strong>Justification:</strong> " ++ toStr justification ++ "</p>\n" ++
  "            <button class=\"generate-content-btn\" data-niche=\"" ++ toStr niche ++
  "\" data-location=\"" ++ toStr location ++ "\">\n" ++
  "                Generate Content & Edit\n" ++
  "            </button>"

/-- The markup of the analysis error message. -/
def analysisError (error : JSValue) : String :=
  "<p class=\"error-message\">Analysis Error: " ++ toStr error ++ "</p>"

/-- The function `renderAnalysisResults`. -/
def renderAnalysisResults (data : JSValue) (s : App) : Except JSError App := do
  let error ← getProp data "error"
  if truthy error then
    pure { s with resultsContainer := analysisError error }
  else
    let niche ← getProp data "niche"
    let location ← getProp data "location"
    let opportunity_score ← getProp data "opportunity_score"
    let justification ← getProp data "justification"
    let html := analysisSummary niche location (orElse opportunity_score (str "N/A"))
      (orElse justification (str "N/A"))
    pure { s with resultsContainer := html }

/-- The function `handleAnalysis`, up to its `await fetch(..)`. -/
def handleAnalysis (s : App) : App :=
  if !tokenTruthy s.currentIdToken then s
  else
    let niche := s.nicheInput
    let location := s.locationInput
    { s with
      resultsContainer :=
        "<p>Analyzing opportunity for \"" ++ niche ++ "\" in \"" ++ location ++ "\"...</p>",
      log := s.log ++
        [.fetch "POST" "/api/v1/analyze" (bearer s.currentIdToken)
          (some (obj [("niche", str niche), ("location", str location)]))] }

/-- The rest of `handleAnalysis`, once its request is answered. -/
def handleAnalysisThen (o : FetchOutcome) (s : App) : App :=
  match (do
    let data ← awaitJson o "An unknown error occurred."
    renderAnalysisResults data s) with
  | .ok s1 => s1
  | .error error =>
    { s with resultsContainer :=
      "<p class=\"error-message\">Failed to get analysis: " ++ error.message ++ "</p>" }

/-! ## Editor -/

/-- The value of `editorState.content` as a JavaScript value. -/
def Content.toJS : Content → JSValue
  | .absent false => undefined
  | .absent true => null
  | .files entries => obj entries

/-- The draft content a response value gives, for the values the model covers:
`undefined`, `null` and objects. -/
def Content.ofJS : JSValue → Option Content
  | undefined => some (.absent false)
  | null => some (.absent true)
  | obj fields => some (.files fields)
  | _ => none

/-- The raw value a text area holds after `textarea.value = v`: `null` gives the empty
string, any other value its string. -/
def textareaValue : JSValue → String
  | null => ""
  | v => toStr v

/-- Newline normalisation of a text area: a carriage return becomes a line feed, and a
line feed that directly follows a carriage return is dropped. `afterCR` says that the
character before was a carriage return. -/
def normalizeNewlines (afterCR : Bool) : List Char → List Char
  | [] => []
  | c :: rest =>
    if c = Char.ofNat 13 then Char.ofNat 10 :: normalizeNewlines true rest
    else if c = Char.ofNat 10 ∧ afterCR = true then normalizeNewlines false rest
    else c :: normalizeNewlines false rest

/-- The string `textarea.value` gives for a text area whose raw value is `raw`: the raw
value with CRLF and CR replaced by LF. -/
def textareaRead (raw : String) : String :=
  String.mk (normalizeNewlines false raw.toList)

/-- Property write `entries[name] = v` on an object: an existing property keeps its place,
a new one comes last. -/
def assign : List (String × JSValue) → String → JSValue → List (String × JSValue)
  | [], name, v => [(name, v)]
  | (k, w) :: rest, name, v =>
    if k = name then (k, v) :: rest else (k, w) :: assign rest name v

/-- The tabs `openContentEditor` creates for the file names: the first one is active. -/
def openTabs : List String → List Tab
  | [] => []
  | first :: rest => ⟨first, true⟩ :: rest.map (fun filename => ⟨filename, false⟩)

/-- The result of `editorTabs.querySelector(".tab.active")`: the first active tab. -/
def activeTab (tabs : List Tab) : Option Tab :=
  tabs.find? (fun tab => tab.active)

/-- The function `openContentEditor`: the page it leaves, and what it throws, if it
throws (`Object.keys` of an absent content, after the tabs have been emptied). -/
def openContentEditor (s : App) : App × Option JSError :=
  let s := { s with editorTabs := [] }
  match s.editorState.content with
  | .absent _ => (s, some ⟨"Cannot convert undefined or null to object"⟩)
  | .files entries =>
    let filenames := entries.map Prod.fst
    let s :=
      match filenames with
      | [] => s
      | first :: _ => { s with contentEditorTextarea := textareaValue (lookup entries first) }
    ({ s with editorTabs := openTabs filenames, modalOpen := true,
              editorModalHidden := false }, none)

/-- The function `closeContentEditor`. -/
def closeContentEditor (s : App) : App :=
  { s with modalOpen := false, editorModalHidden := true }

/-- The statement `editorState.content[activeTab.dataset.filename] =
contentEditorTextarea.value` guarded by `if (activeTab)`: the page it leaves, or what it
throws when there is an active tab and no content. -/
def flushActiveTab (s : App) : Except JSError App :=
  match activeTab s.editorTabs with
  | none => .ok s
  | some tab =>
    match s.editorState.content with
    | .absent _ => .error ⟨"Cannot set properties of undefined or null"⟩
    | .files entries =>
      .ok { s with editorState :=
        { s.editorState with
          content := .files
            (assign entries tab.filename (str (textareaRead s.contentEditorTextarea))) } }

/-- The tabs after every tab lost the class `active` and the tab at `target` got it. -/
def activate : Nat → List Tab → List Tab
  | _, [] => []
  | 0, tab :: rest => ⟨tab.filename, true⟩ :: rest.map (fun t => ⟨t.filename, false⟩)
  | target + 1, tab :: rest => ⟨tab.filename, false⟩ :: activate target rest

/-- The function `handleTabClick` for a click on the element at position `target` of
`editorTabs`; a position past the last tab stands for a click that hits no tab. A
handler that throws stops there, and the page keeps what it had written. -/
def handleTabClick (target : Nat) (s : App) : App :=
  match s.editorTabs[target]? with
  | none => s
  | some clicked =>
    match flushActiveTab s with
    | .error _ => s
    | .ok s =>
      let s := { s with editorTabs := activate target s.editorTabs }
      match s.editorState.content with
      | .absent _ => s
      | .files entries =>
        { s with contentEditorTextarea := textareaValue (lookup entries clicked.filename) }

/-- The user types: the raw value of the text area is now `text`. -/
def typeText (text : String) (s : App) : App :=
  { s with contentEditorTextarea := text }

/-- What the user does in the open editor. -/
inductive EditorEvent where
  | typed (text : String)
  | clicked (target : Nat)

/-- One action of the user in the editor. -/
def editorStep (s : App) : EditorEvent → App
  | .typed text => typeText text s
  | .clicked target => handleTabClick target s

/-- A sequence of actions of the user in the editor. -/
def editorRun (evs : List EditorEvent) (s : App) : App :=
  evs.foldl editorStep s

/-- The function `handleEditSite`, up to its `await fetch(..)`. -/
def handleEditSite (siteId : JSValue) (s : App) : App :=
  { s with
    assetStatus := "<p>Loading content for editing...</p>",
    log := s.log ++
      [.fetch "GET" ("/api/v1/sites/" ++ toStr siteId) (bearer s.currentIdToken) none] }

/-- The object literal `handleEditSite` assigns to `editorState`, from the response body
`data`; `none` inside when `data.content` is a value the model does not cover. -/
def siteDraft (data : JSValue) : Except JSError (Option EditorState) := do
  let business_name ← getProp data "business_name"
  let niche ← getProp data "niche"
  let location ← getProp data "location"
  let content ← getProp data "content"
  let site_structure ← getProp data "site_structure"
  let sanity_site_id ← getProp data "sanity_site_id"
  pure ((Content.ofJS content).map fun c =>
    { businessName := business_name, niche := niche, location := location, content := c,
      site_structure := site_structure, sanity_site_id := sanity_site_id })

/-- The rest of `handleEditSite`, once its request is answered; `none` when the response
gives a `content` the model does not cover. -/
def handleEditSiteThen (o : FetchOutcome) (s : App) : Option App :=
  let failed (page : App) (error : JSError) : App :=
    { page with assetStatus := "<p class=\"error-message\">" ++ error.message ++ "</p>" }
  match (do
    let data ← awaitJson o "Failed to load site content."
    siteDraft data) with
  | .error error => some (failed s error)
  | .ok none => none
  | .ok (some draft) =>
    match openContentEditor { s with editorState := draft } with
    | (s1, none) => some { s1 with assetStatus := "" }
    | (s1, some error) => some (failed s1 error)

/-- The function `startContentGeneration`, up to its `await fetch(..)`. -/
def startContentGeneration (businessName niche location : JSValue) (s : App) : App :=
  { s with
    assetStatus :=
      "<p>Generating initial content for \"" ++ toStr businessName ++ "\"...</p>",
    log := s.log ++
      [.fetch "POST" "/api/v1/generate-content" (bearer s.currentIdToken)
        (some (obj [("business_name", businessName), ("niche", niche),
          ("location", location)]))] }

/-- One property of the object literal with the spread of `data` last: the property of
`data` when `data` is an object that has it, the value written before the spread
otherwise. -/
def spreadOver (data : JSValue) (name : String) (before : JSValue) : JSValue :=
  match data with
  | obj fields => if fields.any (fun kv => kv.1 == name) then lookup fields name else before
  | _ => before

/-- The object literal `startContentGeneration` assigns to `editorState`; `none` when
`data.content` is a value the model does not cover. -/
def generatedDraft (businessName niche location data : JSValue) : Option EditorState :=
  (Content.ofJS (spreadOver data "content" undefined)).map fun c =>
    { businessName := spreadOver data "businessName" businessName,
      niche := spreadOver data "niche" niche,
      location := spreadOver data "location" location,
      content := c,
      site_structure := spreadOver data "site_structure" undefined,
      sanity_site_id := spreadOver data "sanity_site_id" undefined }

/-- The rest of `startContentGeneration`, once its request is answered; `none` when the
response gives a `content` the model does not cover. -/
def startContentGenerationThen (businessName niche location : JSValue) (o : FetchOutcome)
    (s : App) : Option App :=
  let failed (page : App) (error : JSError) : App :=
    { page with assetStatus :=
      "<p class=\"error-message\">Error generating content: " ++ error.message ++ "</p>" }
  match awaitJson o "Failed to generate content." with
  | .error error => some (failed s error)
  | .ok data =>
    match generatedDraft businessName niche location data with
    | none => none
    | some draft =>
      match openContentEditor { s with editorState := draft } with
      | (s1, none) =>
        some { s1 with
          assetStatus := "<p>Content generated. Please review in the editor.</p>" }
      | (s1, some error) => some (failed s1 error)

/-! ## Deploy submission -/

/-- The function `handleFinalizeDeploy`, up to its `await fetch(..)`. The first statement
is outside the `try`: if it throws, the handler stops and nothing else happens. -/
def handleFinalizeDeploy (s : App) : App :=
  match flushActiveTab s with
  | .error _ => s
  | .ok s =>
    let s := closeContentEditor s
    { s with
      assetStatus :=
        "<p>Pushing content to CMS for \"" ++ toStr s.editorState.businessName ++
          "\"...</p>",
      log := s.log ++
        [.fetch "POST" "/api/v1/assemble-and-deploy" (bearer s.currentIdToken)
          (some (obj [("business_name", s.editorState.businessName),
            ("niche", s.editorState.niche),
            ("location", s.editorState.location),
            ("edited_content", s.editorState.content.toJS),
            ("site_structure", s.editorState.site_structure)]))] }

/-- The markup `handleFinalizeDeploy` shows when starting the task failed. -/
def deployError (error : JSError) : String :=
  "<p class=\"error-message\">Error starting task: " ++ error.message ++ "</p>"

/-- The markup `handleFinalizeDeploy` shows when the task was started. -/
def deployInProgress (businessName task_id : JSValue) : String :=
  "<p>CMS push for \"" ++ toStr businessName ++ "\" is in progress. Task ID: " ++
    toStr task_id ++ "</p>"

/-- The rest of `handleFinalizeDeploy`, once the deploy request is answered. -/
def handleFinalizeDeployThen (o : FetchOutcome) (s : App) : App :=
  match (do
    let data ← awaitJson o "Failed to start task."
    let task_id ← getProp data "task_id"
    pure (data, task_id)) with
  | .error error => { s with assetStatus := deployError error }
  | .ok (_, task_id) =>
    let s := { s with assetStatus := deployInProgress s.editorState.businessName task_id }
    (pollDeploymentStatus task_id s.editorState.businessName s).2

/-- Number of pollers started so far. -/
def pollersStarted (s : App) : Nat :=
  (s.log.filter isSetInterval).length

/-- The answer is a successful response whose body is a JSON value other than `null`. -/
def FetchOutcome.accepted : FetchOutcome → Bool
  | .response true (.ok data) => !nullish data
  | _ => false

/-- The body of the answer is an object with a property `task_id`. -/
def FetchOutcome.carriesTaskId : FetchOutcome → Bool
  | .response _ (.ok (obj fields)) => fields.any (fun kv => kv.1 == "task_id")
  | _ => false

/-- The value has an own property `name`. -/
def hasField (v : JSValue) (name : String) : Bool :=
  match v with
  | obj fields => fields.any (fun kv => kv.1 == name)
  | _ => false

/-! ## The editor the specification describes -/

/-- An editor that keeps one text per file, as the specification words it: the text of
each file, the file being edited, and for each file the last text the user left in the
text area for it, if the user ever left it. Typing changes the text of the file being
edited; choosing a tab leaves the file being edited with the text it has and changes the
file being edited, and no text. A text is what a text area gives for what is put into it
(`textareaRead`). -/
structure Desk where
  texts : String → String
  active : Option String
  left : String → Option String

/-- The desk when a draft is opened: each file holds its draft text, the first file is
the one being edited, and no file has been left yet. -/
def Desk.opened (entries : List (String × JSValue)) : Desk :=
  { texts := fun filename => textareaRead (textareaValue (lookup entries filename)),
    active := (entries.map Prod.fst).head?,
    left := fun _ => none }

/-- One action of the user at the desk; `names` are the file names in tab order. -/
def Desk.step (names : List String) (d : Desk) : EditorEvent → Desk
  | .typed text =>
    match d.active with
    | none => d
    | some a => { d with texts := Function.update d.texts a (textareaRead text) }
  | .clicked target =>
    match names[target]? with
    | none => d
    | some filename =>
      match d.active with
      | none => { d with active := some filename }
      | some a =>
        { d with
          left := Function.update d.left a (some (d.texts a)),
          active := some filename }

/-- A sequence of actions of the user at the desk. -/
def Desk.run (names : List String) (evs : List EditorEvent) (d : Desk) : Desk :=
  evs.foldl (Desk.step names) d

/-- The page `s`, opened on the draft `entries`, shows the desk `d`: the draft has the
files of `entries`, exactly the tab of the file being edited is active, the text area
gives the text of that file, the entry of every other file gives, put into a text area,
the text of that file, the entry of a file the user has left is the text left there, and
the entry of a file never left is the one the draft was opened with. -/
def Shows (entries : List (String × JSValue)) (s : App) (d : Desk) : Prop :=
  ∃ cur a,
    s.editorState.content = .files cur ∧ cur.map Prod.fst = entries.map Prod.fst ∧
    d.active = some a ∧ a ∈ entries.map Prod.fst ∧
    s.editorTabs = (entries.map Prod.fst).map (fun f => ⟨f, f == a⟩) ∧
    textareaRead s.contentEditorTextarea = d.texts a ∧
    (∀ f, f ≠ a → textareaRead (textareaValue (lookup cur f)) = d.texts f) ∧
    (∀ f t, d.left f = some t → lookup cur f = str t) ∧
    (∀ f, d.left f = none → lookup cur f = lookup entries f) ∧
    (∀ f t, f ≠ a → d.left f = some t → d.texts f = t)

/-- A draft with two files, for examples; the first has a CRLF line break. -/
def sampleDraft : List (String × JSValue) :=
  [("index.html", str "line1\r\nline2"), ("about-us.html", str "<h1>About</h1>")]

/-- A fresh page whose `editorState` holds `sampleDraft`. -/
def samplePage : App :=
  { App.init false true true with
    currentIdToken := some "tok",
    editorState := { EditorState.empty with
      businessName := str "Acme", content := .files sampleDraft } }


set_option maxRecDepth 100000

/-! ## Lemmas on the poller -/

theorem isStatusGet_sites (a : String) (b : Option JSValue) :
    isStatusGet (.fetch "GET" "/api/v1/sites" a b) = false := by
  rfl

theorem statusGets_loadUserSites (s : App) : statusGets (loadUserSites s) = statusGets s := by
  unfold loadUserSites statusGets
  by_cases h : tokenTruthy s.currentIdToken = true
  · simp [h, List.filter_append, isStatusGet_sites]
  · simp [h]

/-- An attempt that does not throw clears the interval or leaves poller and page as they
were, and never issues a status request. -/
theorem attempt_shape (o : FetchOutcome) (p : Poller) (s : App) (r : Poller × App)
    (h : p.attempt o s = .ok r) :
    (r.1 = p.clear ∨ r = (p, s)) ∧ statusGets r.2 = statusGets s := by
  unfold Poller.attempt at h
  split at h
  · cases h
  · cases h; simp
  · cases h
  · simp only [bind, Except.bind, pure, Except.pure] at h
    repeat' (split at h)
    all_goals first
      | (cases h; done)
      | (cases h; exact ⟨Or.inl rfl, statusGets_loadUserSites _⟩)
      | (cases h; exact ⟨Or.inl rfl, rfl⟩)
      | (cases h; exact ⟨Or.inr rfl, rfl⟩)

theorem settle_shape (o : FetchOutcome) (p : Poller) (s : App) :
    ((p.settle o s).1 = p.clear ∨ p.settle o s = (p, s)) ∧
      statusGets (p.settle o s).2 = statusGets s := by
  unfold Poller.settle
  cases h : p.attempt o s with
  | error e => exact ⟨Or.inl rfl, rfl⟩
  | ok r => exact attempt_shape o p s r h

theorem attempt_of_status (p : Poller) (s : App) (data status : JSValue)
    (hst : getProp data "status" = .ok status) (hc : isStr status "complete" = false)
    (hf : isStr status "failed" = false) :
    p.attempt (.response true (.ok data)) s = .ok (p, s) := by
  simp [Poller.attempt, hst, hc, hf, bind, Except.bind, pure, Except.pure]

/-- An answer that is not terminal leaves poller and page as they were. -/
theorem settle_other (o : FetchOutcome) (p : Poller) (s : App) (h : o.terminal = false) :
    p.settle o s = (p, s) := by
  rcases o with e | ⟨ok, body⟩
  · simp [FetchOutcome.terminal, FetchOutcome.raises] at h
  · cases ok
    · simp [FetchOutcome.terminal, FetchOutcome.nonSuccess] at h
    · rcases body with e | data
      · simp [FetchOutcome.terminal, FetchOutcome.raises] at h
      · have key : ∃ status, getProp data "status" = .ok status ∧
            isStr status "complete" = false ∧ isStr status "failed" = false := by
          cases data <;>
            simp [FetchOutcome.terminal, FetchOutcome.nonSuccess, FetchOutcome.raises,
              FetchOutcome.statusIs, nullish] at h <;>
            first
              | exact ⟨_, rfl, h.1, h.2⟩
              | exact ⟨undefined, rfl, rfl, rfl⟩
        obtain ⟨status, hst, hc, hf⟩ := key
        simp [Poller.settle, attempt_of_status p s data status hst hc hf]

/-- A terminal answer clears the interval. -/
theorem settle_terminal (o : FetchOutcome) (p : Poller) (s : App) (h : o.terminal = true) :
    (p.settle o s).1.cleared = true := by
  rcases o with e | ⟨ok, body⟩
  · rfl
  · cases ok
    · rfl
    · rcases body with e | data
      · rfl
      · unfold Poller.settle
        cases hat : p.attempt (.response true (.ok data)) s with
        | error e => rfl
        | ok r =>
          simp only
          unfold Poller.attempt at hat
          simp only [bind, Except.bind, pure, Except.pure] at hat
          repeat' (split at hat)
          all_goals first
            | (cases hat; done)
            | (cases hat; rfl)
            | skip
          rename_i v hst hc hf
          exfalso
          cases data <;>
            simp [FetchOutcome.terminal, FetchOutcome.nonSuccess, FetchOutcome.raises,
              FetchOutcome.statusIs, nullish, getProp] at h hst
          subst hst
          rcases h with h | h
          · exact hc h
          · exact hf h

theorem isStatusGet_status (taskId : JSValue) (a : String) (b : Option JSValue) :
    isStatusGet (.fetch "GET" ("/api/v1/deployment-status/" ++ toStr taskId) a b) = true := by
  simp [isStatusGet, String.toList, String.data_append]

theorem statusGets_fire (p : Poller) (s : App) (h : p.cleared = false) :
    statusGets (p.fire s) = statusGets s + 1 := by
  simp [Poller.fire, h, statusGets, List.filter_append, isStatusGet_status]

theorem fire_cleared (p : Poller) (s : App) (h : p.cleared = true) : p.fire s = s := by
  simp [Poller.fire, h]

/-- A cleared poller stays cleared and issues no status request, whatever happens. -/
theorem run_cleared (evs : List PollEvent) (ps : Poller × App) (h : ps.1.cleared = true) :
    (Poller.run evs ps).1.cleared = true ∧
      statusGets (Poller.run evs ps).2 = statusGets ps.2 := by
  induction evs generalizing ps with
  | nil => exact ⟨h, rfl⟩
  | cons ev rest ih =>
    have hstep : (Poller.step ps ev).1.cleared = true ∧
        statusGets (Poller.step ps ev).2 = statusGets ps.2 := by
      cases ev with
      | due => exact ⟨h, by simp [Poller.step, fire_cleared _ _ h]⟩
      | answered o =>
        refine ⟨?_, (settle_shape o ps.1 ps.2).2⟩
        rcases (settle_shape o ps.1 ps.2).1 with h1 | h1
        · simp [Poller.step, h1, Poller.clear]
        · simp [Poller.step, h1, h]
    have := ih (Poller.step ps ev) hstep.1
    simp only [Poller.run, List.foldl_cons] at this ⊢
    exact ⟨this.1, this.2.trans hstep.2⟩

/-- C1: however a poller started by `pollDeploymentStatus` got where it is, an answer
that is a non-success response, a body with status "complete" or "failed", or one that
makes the callback throw, leaves the interval cleared; from then on it stays cleared
and no status request is issued, whatever comes due or is answered later. Any other
answer leaves poller and page as they were, and a running poller then issues exactly
one status request when its interval next comes due. -/
theorem pollDeploymentStatus_terminal_absorbing (taskId businessName : JSValue) (s0 : App)
    (before : List PollEvent) (o : FetchOutcome) :
    let ps := Poller.run before (pollDeploymentStatus taskId businessName s0)
    (o.terminal = true →
      ∀ later : List PollEvent,
        (Poller.run later (ps.1.settle o ps.2)).1.cleared = true ∧
        statusGets (Poller.run later (ps.1.settle o ps.2)).2 = statusGets ps.2) ∧
    (o.terminal = false →
      ps.1.settle o ps.2 = ps ∧
      (ps.1.cleared = false →
        (Poller.step (ps.1.settle o ps.2) .due).1.cleared = false ∧
        statusGets (Poller.step (ps.1.settle o ps.2) .due).2 = statusGets ps.2 + 1)) := by
  intro ps
  refine ⟨fun h later => ?_, fun h => ?_⟩
  · have h1 := run_cleared later (ps.1.settle o ps.2) (settle_terminal o ps.1 ps.2 h)
    exact ⟨h1.1, h1.2.trans (settle_shape o ps.1 ps.2).2⟩
  · have h1 : ps.1.settle o ps.2 = ps := settle_other o ps.1 ps.2 h
    refine ⟨h1, fun hc => ?_⟩
    rw [h1]
    exact ⟨hc, statusGets_fire ps.1 ps.2 hc⟩

/-- C1 at concrete answers: a poller for task "t1" whose first request is answered by a
non-success response is cleared and stays at one status request through two further
intervals; answered by status "running" it is unchanged and issues a second request. -/
theorem pollDeploymentStatus_terminal_absorbing_witness :
    ((Poller.run [.due, .due]
        ((Poller.run [.due] (pollDeploymentStatus (str "t1") (str "Acme")
            (App.init true false true))).1.settle (.response false (.ok null))
          (Poller.run [.due] (pollDeploymentStatus (str "t1") (str "Acme")
            (App.init true false true))).2)).1.cleared = true ∧
      statusGets (Poller.run [.due, .due]
        ((Poller.run [.due] (pollDeploymentStatus (str "t1") (str "Acme")
            (App.init true false true))).1.settle (.response false (.ok null))
          (Poller.run [.due] (pollDeploymentStatus (str "t1") (str "Acme")
            (App.init true false true))).2)).2 =
        statusGets (Poller.run [.due] (pollDeploymentStatus (str "t1") (str "Acme")
            (App.init true false true))).2) ∧
    statusGets (Poller.step
      ((Poller.run [.due] (pollDeploymentStatus (str "t1") (str "Acme")
          (App.init true false true))).1.settle
        (.response true (.ok (obj [("status", str "running")])))
        (Poller.run [.due] (pollDeploymentStatus (str "t1") (str "Acme")
          (App.init true false true))).2) .due).2 =
      statusGets (Poller.run [.due] (pollDeploymentStatus (str "t1") (str "Acme")
          (App.init true false true))).2 + 1 :=
  ⟨(pollDeploymentStatus_terminal_absorbing (str "t1") (str "Acme")
      (App.init true false true) [.due] (.response false (.ok null))).1 (by decide)
      [.due, .due],
    (((pollDeploymentStatus_terminal_absorbing (str "t1") (str "Acme")
      (App.init true false true) [.due]
      (.response true (.ok (obj [("status", str "running")])))).2 (by decide)).2
      (by decide)).2⟩

/-- A successful response with status "complete" whose `result` is neither `undefined`
nor `null` renders the success message, with the CMS error line exactly when
`result.sanity_result && result.sanity_result.error` is truthy, clears the interval and
calls `loadUserSites`. -/
theorem settle_complete (p : Poller) (s : App) (data status result sanity nested : JSValue)
    (hstatus : getProp data "status" = .ok status) (hc : isStr status "complete" = true)
    (hresult : getProp data "result" = .ok result)
    (hsanity : getProp result "sanity_result" = .ok sanity)
    (hnested : (if truthy sanity then getProp sanity "error" else .ok sanity) = .ok nested) :
    p.settle (.response true (.ok data)) s =
      (p.clear, loadUserSites { s with assetStatus :=
        (if truthy nested then successMessage p.businessName ++ cmsErrorLine nested
          else successMessage p.businessName) }) := by
  by_cases hs : truthy sanity = true
  · simp only [hs, if_true] at hnested
    simp [Poller.settle, Poller.attempt, hstatus, hc, hresult, hsanity, hs, hnested, bind,
      Except.bind, pure, Except.pure]
  · simp only [hs] at hnested
    cases hnested
    simp [Poller.settle, Poller.attempt, hstatus, hc, hresult, hsanity, hs, bind,
      Except.bind, pure, Except.pure]

/-- The answer `{"status": "complete"}` with no `result` only clears the interval. -/
theorem settle_bare_complete (p : Poller) (s : App) :
    p.settle (.response true (.ok (obj [("status", str "complete")]))) s = (p.clear, s) := by
  rfl

/-- C2, at the answer `{"status": "complete"}` (HTTP ok, no `result`): the interval is
cleared and nothing else happens. The asset status region keeps what it held, so no
success message is rendered, `loadUserSites` is not called and no request is made. -/
theorem complete_without_result_renders_nothing (p : Poller) (s : App) :
    (p.settle (.response true (.ok (obj [("status", str "complete")]))) s).1.cleared = true ∧
    (p.settle (.response true (.ok (obj [("status", str "complete")]))) s).2.assetStatus =
      s.assetStatus ∧
    (p.settle (.response true (.ok (obj [("status", str "complete")]))) s).2.loadUserSitesCalls =
      s.loadUserSitesCalls ∧
    (p.settle (.response true (.ok (obj [("status", str "complete")]))) s).2.log = s.log := by
  rw [settle_bare_complete]
  exact ⟨rfl, rfl, rfl, rfl⟩

theorem loadUserSites_assetStatus (s : App) :
    (loadUserSites s).assetStatus = s.assetStatus := by
  by_cases h : tokenTruthy s.currentIdToken = true <;> simp [loadUserSites, h]

theorem loadUserSites_calls (s : App) :
    (loadUserSites s).loadUserSitesCalls = s.loadUserSitesCalls + 1 := by
  by_cases h : tokenTruthy s.currentIdToken = true <;> simp [loadUserSites, h]

theorem fire_assetStatus (p : Poller) (s : App) : (p.fire s).assetStatus = s.assetStatus := by
  cases h : p.cleared <;> simp [Poller.fire, h]

theorem fire_calls (p : Poller) (s : App) :
    (p.fire s).loadUserSitesCalls = s.loadUserSitesCalls := by
  cases h : p.cleared <;> simp [Poller.fire, h]

theorem tick_other (o : FetchOutcome) (p : Poller) (s : App) (hp : p.cleared = false)
    (h : o.terminal = false) : Poller.tick o (p, s) = (p, p.fire s) := by
  simp [Poller.tick, hp, settle_other o p (p.fire s) h]

/-- Ticks with answers that are not terminal only add status requests to the log, one
each. -/
theorem ticks_other (os : List FetchOutcome) (p : Poller) (s : App) (hp : p.cleared = false)
    (h : ∀ o ∈ os, o.terminal = false) :
    ∃ extra : List Effect,
      Poller.ticks os (p, s) = (p, { s with log := s.log ++ extra }) ∧
      (extra.filter isStatusGet).length = os.length := by
  induction os generalizing s with
  | nil => exact ⟨[], by simp [Poller.ticks], rfl⟩
  | cons o rest ih =>
    have ho : o.terminal = false := h o (List.mem_cons_self _ _)
    obtain ⟨extra, h1, h2⟩ := ih (p.fire s) (fun x hx => h x (List.mem_cons_of_mem _ hx))
    refine ⟨.fetch "GET" ("/api/v1/deployment-status/" ++ toStr p.taskId)
      (bearer s.currentIdToken) none :: extra, ?_, ?_⟩
    · simp only [Poller.ticks, List.foldl_cons, tick_other o p s hp ho] at h1 ⊢
      rw [h1]
      simp [Poller.fire, hp]
    · simp [List.filter_cons, isStatusGet_status, h2]

theorem ticks_append (os : List FetchOutcome) (o : FetchOutcome) (ps : Poller × App) :
    Poller.ticks (os ++ [o]) ps = Poller.tick o (Poller.ticks os ps) := by
  simp [Poller.ticks, List.foldl_append]

theorem terminal_replicate (n : Nat) (o : FetchOutcome) (h : o.terminal = false) :
    ∀ x ∈ List.replicate n o, x.terminal = false := by
  intro x hx
  rw [(List.mem_replicate.mp hx).2]
  exact h

/-- For answers that are not terminal followed by a successful response with status
"complete" whose `result` is neither `undefined` nor `null`: one status request per
answer is issued, the asset status region ends with the success message (and the CMS
error line when there is a nested error), and `loadUserSites` is called once. -/
theorem ticks_then_complete (taskId businessName : JSValue) (s0 : App)
    (os : List FetchOutcome) (data status result sanity nested : JSValue)
    (hos : ∀ o ∈ os, o.terminal = false)
    (hstatus : getProp data "status" = .ok status) (hc : isStr status "complete" = true)
    (hresult : getProp data "result" = .ok result)
    (hsanity : getProp result "sanity_result" = .ok sanity)
    (hnested : (if truthy sanity then getProp sanity "error" else .ok sanity) = .ok nested) :
    let r := Poller.ticks (os ++ [.response true (.ok data)])
      (pollDeploymentStatus taskId businessName s0)
    statusGets r.2 = statusGets s0 + os.length + 1 ∧
    r.2.assetStatus =
      (if truthy nested then successMessage businessName ++ cmsErrorLine nested
        else successMessage businessName) ∧
    r.2.loadUserSitesCalls = s0.loadUserSitesCalls + 1 ∧
    r.1.cleared = true := by
  intro r
  obtain ⟨extra, h1, h2⟩ := ticks_other os ⟨taskId, businessName, false⟩
    { s0 with log := s0.log ++ [.setInterval taskId businessName 5000] } rfl hos
  have hr : r = Poller.tick (.response true (.ok data)) (Poller.ticks os
      (pollDeploymentStatus taskId businessName s0)) := ticks_append _ _ _
  simp only [pollDeploymentStatus] at hr
  rw [h1] at hr
  simp only [Poller.tick, Bool.false_eq_true, if_false] at hr
  rw [settle_complete _ _ data status result sanity nested hstatus hc hresult hsanity
    hnested] at hr
  rw [hr]
  refine ⟨?_, ?_, ?_, rfl⟩
  · rw [statusGets_loadUserSites]
    simp [statusGets, Poller.fire, List.filter_append, isStatusGet_status, h2, isStatusGet]
    omega
  · simp [loadUserSites_assetStatus]
  · simp [loadUserSites_calls, fire_calls]

/-- C3, at the answers running, ..., running (`n` of them), `{"status": "complete"}`
(each HTTP ok, the last with no `result`): `n + 1` status requests are issued, but the
asset status region keeps what it held before the poller started and `loadUserSites` is
not called. -/
theorem running_then_bare_complete (n : Nat) (taskId businessName : JSValue) (s0 : App) :
    statusGets (Poller.ticks
      (List.replicate n (.response true (.ok (obj [("status", str "running")]))) ++
        [.response true (.ok (obj [("status", str "complete")]))])
      (pollDeploymentStatus taskId businessName s0)).2 = statusGets s0 + n + 1 ∧
    (Poller.ticks
      (List.replicate n (.response true (.ok (obj [("status", str "running")]))) ++
        [.response true (.ok (obj [("status", str "complete")]))])
      (pollDeploymentStatus taskId businessName s0)).2.assetStatus = s0.assetStatus ∧
    (Poller.ticks
      (List.replicate n (.response true (.ok (obj [("status", str "running")]))) ++
        [.response true (.ok (obj [("status", str "complete")]))])
      (pollDeploymentStatus taskId businessName s0)).2.loadUserSitesCalls =
        s0.loadUserSitesCalls := by
  obtain ⟨extra, h1, h2⟩ := ticks_other
    (List.replicate n (.response true (.ok (obj [("status", str "running")]))))
    ⟨taskId, businessName, false⟩
    { s0 with log := s0.log ++ [.setInterval taskId businessName 5000] } rfl
    (terminal_replicate n _ (by decide))
  rw [ticks_append]
  simp only [pollDeploymentStatus]
  rw [h1]
  simp only [Poller.tick, Bool.false_eq_true, if_false, settle_bare_complete]
  refine ⟨?_, rfl, rfl⟩
  simp [statusGets, Poller.fire, List.filter_append, isStatusGet_status, h2, isStatusGet]
  omega

theorem infix_of_append (a e b : String) : e.toList <:+: (a ++ e ++ b).toList := by
  refine ⟨a.toList, b.toList, ?_⟩
  simp [String.toList, String.data_append]

/-- C4: for every successful response whose body has status "failed" and the error text
`e`, the asset status region is set to the failure message, which contains `e` as a
literal substring; nothing else on the page changes, so the asset list is not refreshed
and no request is made; the interval is cleared, and whatever comes due or is answered
later, the poller stays cleared and issues no status request. -/
theorem failed_response_renders_error (p : Poller) (s : App) (data : JSValue) (e : String)
    (hstatus : getProp data "status" = .ok (str "failed"))
    (herror : getProp data "error" = .ok (str e)) (later : List PollEvent) :
    p.settle (.response true (.ok data)) s =
      (p.clear, { s with assetStatus := failureMessage p.businessName (str e) }) ∧
    e.toList <:+: (failureMessage p.businessName (str e)).toList ∧
    (p.settle (.response true (.ok data)) s).2.loadUserSitesCalls = s.loadUserSitesCalls ∧
    (p.settle (.response true (.ok data)) s).2.assetList = s.assetList ∧
    (p.settle (.response true (.ok data)) s).2.log = s.log ∧
    (Poller.run later (p.settle (.response true (.ok data)) s)).1.cleared = true ∧
    statusGets (Poller.run later (p.settle (.response true (.ok data)) s)).2 =
      statusGets s := by
  have h1 : p.settle (.response true (.ok data)) s =
      (p.clear, { s with assetStatus := failureMessage p.businessName (str e) }) := by
    have hc : isStr (str "failed") "complete" = false := by decide
    have hf : isStr (str "failed") "failed" = true := by decide
    simp [Poller.settle, Poller.attempt, hstatus, herror, hc, hf, bind, Except.bind, pure,
      Except.pure]
  have h2 := run_cleared later (p.settle (.response true (.ok data)) s) (by rw [h1]; rfl)
  refine ⟨h1, ?_, ?_, ?_, ?_, h2.1, ?_⟩
  · unfold failureMessage
    exact infix_of_append _ e "</p>"
  · rw [h1]
  · rw [h1]
  · rw [h1]
  · rw [h2.2, h1]; rfl

/-- C4 at the answer `{"status": "failed", "error": "quota exceeded"}`. -/
theorem failed_response_renders_error_witness :
    "quota exceeded".toList <:+:
        (failureMessage (str "Acme") (str "quota exceeded")).toList ∧
      (Poller.run [.due, .due]
        (Poller.settle (.response true
          (.ok (obj [("status", str "failed"), ("error", str "quota exceeded")])))
          ⟨str "t1", str "Acme", false⟩ (App.init true false true))).1.cleared = true ∧
      statusGets (Poller.run [.due, .due]
        (Poller.settle (.response true
          (.ok (obj [("status", str "failed"), ("error", str "quota exceeded")])))
          ⟨str "t1", str "Acme", false⟩ (App.init true false true))).2 =
        statusGets (App.init true false true) :=
  have h := failed_response_renders_error ⟨str "t1", str "Acme", false⟩
    (App.init true false true)
    (obj [("status", str "failed"), ("error", str "quota exceeded")]) "quota exceeded"
    rfl rfl [.due, .due]
  ⟨h.2.1, h.2.2.2.2.2.1, h.2.2.2.2.2.2⟩


/-! ## Deploy submission -/

/-- C5 as stated fails: the answer `{}` (HTTP ok, no `task_id`) to the deploy request of
a fresh page starts a poller, for the task id `undefined`, and the asset status region
shows the in-progress message, not an error. -/
theorem deploy_without_task_id_starts_poller :
    FetchOutcome.carriesTaskId (.response true (.ok (obj []))) = false ∧
    pollersStarted (handleFinalizeDeployThen (.response true (.ok (obj [])))
      (handleFinalizeDeploy (App.init true false true))) = 1 ∧
    (handleFinalizeDeployThen (.response true (.ok (obj [])))
      (handleFinalizeDeploy (App.init true false true))).assetStatus =
        "<p>CMS push for \"undefined\" is in progress. Task ID: undefined</p>" := by
  decide

/-- C5, amended: an answer to the deploy request that is not a successful response with
a JSON body other than `null` (every non-success response is such an answer) shows an
error message in the asset status region and starts no poller; a successful response
with a JSON body other than `null` shows the in-progress message and starts exactly one
poller, for the task id `data.task_id`, whether the body has that property or not. -/
theorem handleFinalizeDeploy_poller_iff_accepted (o : FetchOutcome) (s : App) :
    (o.nonSuccess = true → o.accepted = false) ∧
    (o.accepted = false →
      (∃ error, (handleFinalizeDeployThen o s).assetStatus = deployError error) ∧
      (handleFinalizeDeployThen o s).log = s.log ∧
      pollersStarted (handleFinalizeDeployThen o s) = pollersStarted s) ∧
    (o.accepted = true →
      ∃ data task_id, o = .response true (.ok data) ∧ getProp data "task_id" = .ok task_id ∧
        handleFinalizeDeployThen o s =
          { s with
            assetStatus := deployInProgress s.editorState.businessName task_id,
            log := s.log ++ [.setInterval task_id s.editorState.businessName 5000] } ∧
        pollersStarted (handleFinalizeDeployThen o s) = pollersStarted s + 1) := by
  refine ⟨?_, ?_, ?_⟩
  · intro h
    rcases o with e | ⟨ok, body⟩
    · rfl
    · cases ok
      · rfl
      · simp [FetchOutcome.nonSuccess] at h
  · intro h
    have key : ∃ error, handleFinalizeDeployThen o s =
        { s with assetStatus := deployError error } := by
      rcases o with e | ⟨ok, body⟩
      · exact ⟨e, rfl⟩
      · rcases body with e | data
        · exact ⟨e, rfl⟩
        · cases ok
          · cases hd : getProp data "detail" with
            | error e => exact ⟨e, by simp [handleFinalizeDeployThen, awaitJson, hd, bind, Except.bind]⟩
            | ok detail =>
              exact ⟨⟨toStr (orElse detail (str "Failed to start task."))⟩,
                by simp [handleFinalizeDeployThen, awaitJson, hd, bind, Except.bind]⟩
          · cases data <;> simp [FetchOutcome.accepted, nullish] at h
            · exact ⟨_, rfl⟩
            · exact ⟨_, rfl⟩
    obtain ⟨error, he⟩ := key
    rw [he]
    exact ⟨⟨error, rfl⟩, rfl, rfl⟩
  · intro h
    rcases o with e | ⟨ok, body⟩
    · simp [FetchOutcome.accepted] at h
    · rcases body with e | data
      · cases ok <;> simp [FetchOutcome.accepted] at h
      · cases ok
        · simp [FetchOutcome.accepted] at h
        · have hd : ∃ task_id, getProp data "task_id" = .ok task_id := by
            cases data <;> simp [FetchOutcome.accepted, nullish] at h <;> exact ⟨_, rfl⟩
          obtain ⟨task_id, ht⟩ := hd
          have hr : handleFinalizeDeployThen (.response true (.ok data)) s =
              { s with
                assetStatus := deployInProgress s.editorState.businessName task_id,
                log := s.log ++ [.setInterval task_id s.editorState.businessName 5000] } := by
            simp [handleFinalizeDeployThen, awaitJson, ht, bind, Except.bind, pure,
              Except.pure, pollDeploymentStatus]
          refine ⟨data, task_id, rfl, ht, hr, ?_⟩
          rw [hr]
          simp [pollersStarted, List.filter_append, isSetInterval]

/-- C5, amended, at concrete answers to the deploy request of a fresh page: a 500 response
with a `detail` shows that detail as the error and starts no poller; a successful response
`{"task_id": "t1"}` starts one. -/
theorem handleFinalizeDeploy_poller_iff_accepted_witness :
    pollersStarted (handleFinalizeDeployThen
        (.response false (.ok (obj [("detail", str "No API key")])))
        (handleFinalizeDeploy (App.init true false true))) =
      pollersStarted (handleFinalizeDeploy (App.init true false true)) ∧
    pollersStarted (handleFinalizeDeployThen
        (.response true (.ok (obj [("task_id", str "t1")])))
        (handleFinalizeDeploy (App.init true false true))) =
      pollersStarted (handleFinalizeDeploy (App.init true false true)) + 1 :=
  ⟨((handleFinalizeDeploy_poller_iff_accepted
      (.response false (.ok (obj [("detail", str "No API key")])))
      (handleFinalizeDeploy (App.init true false true))).2.1 (by decide)).2.2,
    by
      obtain ⟨_, _, _, _, _, h⟩ := (handleFinalizeDeploy_poller_iff_accepted
        (.response true (.ok (obj [("task_id", str "t1")])))
        (handleFinalizeDeploy (App.init true false true))).2.2 (by decide)
      exact h⟩

/-! ## Authenticated actions without a token -/

/-- With `currentIdToken` null, the four guarded actions make no request: three leave
the page as it was, and `loadUserSites` returns before touching the asset list. -/
theorem guarded_actions_no_fetch (s : App) (h : s.currentIdToken = none) :
    loadUserSettings s = s ∧ handleSaveSettings s = s ∧ handleAnalysis s = s ∧
    (loadUserSites s).log = s.log ∧ (loadUserSites s).assetList = s.assetList := by
  simp [loadUserSettings, handleSaveSettings, handleAnalysis, loadUserSites, h, tokenTruthy]

/-- C6, at pages whose `currentIdToken` is null: `handleEditSite` and
`startContentGeneration` each call `fetch`, with the header `Bearer null`, and so does
`handleFinalizeDeploy` on a fresh page. -/
theorem unguarded_actions_fetch_without_token (siteId businessName niche location : JSValue)
    (s : App) :
    (handleEditSite siteId { s with currentIdToken := none }).log =
      s.log ++ [.fetch "GET" ("/api/v1/sites/" ++ toStr siteId) "Bearer null" none] ∧
    (startContentGeneration businessName niche location { s with currentIdToken := none }).log =
      s.log ++ [.fetch "POST" "/api/v1/generate-content" "Bearer null"
        (some (obj [("business_name", businessName), ("niche", niche),
          ("location", location)]))] ∧
    (App.init true false true).currentIdToken = none ∧
    (handleFinalizeDeploy (App.init true false true)).log =
      [.fetch "POST" "/api/v1/assemble-and-deploy" "Bearer null"
        (some (obj [("business_name", undefined), ("niche", undefined),
          ("location", undefined), ("edited_content", undefined),
          ("site_structure", undefined)]))] :=
  ⟨rfl, rfl, rfl, rfl⟩

/-! ## Session -/

/-- A signed-out change always leaves `currentIdToken` null. -/
theorem signed_out_clears_token (s : App) :
    (sessionStep s (.authChanged none)).currentIdToken = none := by
  rfl

/-- C7, at the events signed-in, signed-out, token promise resolved with "tok": the most
recent auth state change is signed-out, yet `currentIdToken` is "tok", and the two
loaders have sent it to the backend. -/
theorem stale_token_after_sign_out :
    signedIn [.authChanged (some ⟨str "a@b.c"⟩), .authChanged none, .tokenResolved "tok"] =
      false ∧
    (sessionRun [.authChanged (some ⟨str "a@b.c"⟩), .authChanged none, .tokenResolved "tok"]
      (App.init true false true)).currentIdToken = some "tok" ∧
    (sessionRun [.authChanged (some ⟨str "a@b.c"⟩), .authChanged none, .tokenResolved "tok"]
      (App.init true false true)).log =
      [.getIdToken, .fetch "GET" "/api/v1/user/settings" "Bearer tok" none,
        .fetch "GET" "/api/v1/sites" "Bearer tok" none] :=
  ⟨rfl, rfl, rfl⟩

/-! ## Sign-in -/

/-- C9: when the provider rejects the sign-in with the code `auth/user-not-found`, the
script calls `createUserWithEmailAndPassword` once, with the email and password of the
sign-in, and the auth status region ends empty if creation succeeds and with the
creation error's message if it fails, whatever the message of the sign-in error was.
When the sign-in is rejected with any other code, no creation is called and the region
shows the message of the sign-in error. -/
theorem handleEmailLogin_fallback (signIn create : AuthOutcome) (s : App) :
    (∀ error, signIn = .rejected error → error.code = "auth/user-not-found" →
      (emailLoginAttempt signIn create s).log = s.log ++
        [.signInWithEmailAndPassword s.emailInput s.passwordInput,
          .createUserWithEmailAndPassword s.emailInput s.passwordInput] ∧
      (emailLoginAttempt signIn create s).authError =
        (match create with
          | .resolved => ""
          | .rejected err => err.message)) ∧
    (∀ error, signIn = .rejected error → error.code ≠ "auth/user-not-found" →
      (emailLoginAttempt signIn create s).log = s.log ++
        [.signInWithEmailAndPassword s.emailInput s.passwordInput] ∧
      (emailLoginAttempt signIn create s).authError = error.message) := by
  refine ⟨fun error h1 h2 => ?_, fun error h1 h2 => ?_⟩
  · subst h1
    cases create <;>
      simp [emailLoginAttempt, handleEmailLogin, onSignInRejected, onCreateRejected, h2]
  · subst h1
    simp [emailLoginAttempt, handleEmailLogin, onSignInRejected, h2]

/-- C9 at concrete attempts: an unknown account whose creation fails for a weak password
shows the weak-password message; a wrong password shows the provider's message. -/
theorem handleEmailLogin_fallback_witness :
    (emailLoginAttempt (.rejected ⟨"auth/user-not-found", "There is no user record."⟩)
      (.rejected ⟨"auth/weak-password", "Password should be at least 6 characters."⟩)
      { App.init true false true with emailInput := "a@b.c", passwordInput := "12345" }
      ).authError = "Password should be at least 6 characters." ∧
    (emailLoginAttempt (.rejected ⟨"auth/wrong-password", "The password is invalid."⟩)
      .resolved
      { App.init true false true with emailInput := "a@b.c", passwordInput := "12345" }
      ).authError = "The password is invalid." :=
  ⟨((handleEmailLogin_fallback
      (.rejected ⟨"auth/user-not-found", "There is no user record."⟩)
      (.rejected ⟨"auth/weak-password", "Password should be at least 6 characters."⟩)
      { App.init true false true with emailInput := "a@b.c", passwordInput := "12345" }).1
      ⟨"auth/user-not-found", "There is no user record."⟩ rfl rfl).2,
    ((handleEmailLogin_fallback
      (.rejected ⟨"auth/wrong-password", "The password is invalid."⟩) .resolved
      { App.init true false true with emailInput := "a@b.c", passwordInput := "12345" }).2
      ⟨"auth/wrong-password", "The password is invalid."⟩ rfl (by decide)).2⟩

/-! ## Analysis results -/

/-- C10 as stated fails: a response that carries an `error` field holding the empty
string, or `null`, is not rendered as an error message. The summary is rendered, with
its generate button. -/
theorem falsy_error_field_renders_summary :
    hasField (obj [("error", str ""), ("niche", str "plumber"), ("location", str "Austin")])
      "error" = true ∧
    (renderAnalysisResults
      (obj [("error", str ""), ("niche", str "plumber"), ("location", str "Austin")])
      (App.init true false true)).toOption.map (fun page => page.resultsContainer) =
      some (analysisSummary (str "plumber") (str "Austin") (str "N/A") (str "N/A")) ∧
    (renderAnalysisResults
      (obj [("error", null), ("niche", str "plumber"), ("location", str "Austin")])
      (App.init true false true)).toOption.map (fun page => page.resultsContainer) =
      some (analysisSummary (str "plumber") (str "Austin") (str "N/A") (str "N/A")) ∧
    analysisSummary (str "plumber") (str "Austin") (str "N/A") (str "N/A") ≠
      analysisError (str "") := by
  decide

/-- C10, amended: for a response whose `error` is falsy (absent, `null`, `false`, `0` or
the empty string) and whose `opportunity_score` and `justification` are absent, rendering
does not throw and writes the summary with "N/A" for the score and for the
justification, and the generate button with the response's niche and location; for a
response whose `error` is truthy, rendering writes the error message and nothing else. -/
theorem renderAnalysisResults_placeholders (data : JSValue) (s : App) :
    (∀ error, getProp data "error" = .ok error → truthy error = false →
      getProp data "opportunity_score" = .ok undefined →
      getProp data "justification" = .ok undefined →
      ∃ niche location, getProp data "niche" = .ok niche ∧
        getProp data "location" = .ok location ∧
        renderAnalysisResults data s = .ok
          { s with resultsContainer := analysisSummary niche location (str "N/A") (str "N/A") }) ∧
    (∀ error, getProp data "error" = .ok error → truthy error = true →
      renderAnalysisResults data s = .ok { s with resultsContainer := analysisError error }) := by
  refine ⟨fun error he ht hs hj => ?_, fun error he ht => ?_⟩
  · have hn : ∃ niche, getProp data "niche" = .ok niche := by
      cases data <;> first | exact ⟨_, rfl⟩ | cases he
    have hl : ∃ location, getProp data "location" = .ok location := by
      cases data <;> first | exact ⟨_, rfl⟩ | cases he
    obtain ⟨niche, hn⟩ := hn
    obtain ⟨location, hl⟩ := hl
    refine ⟨niche, location, hn, hl, ?_⟩
    have hu : orElse undefined (str "N/A") = str "N/A" := rfl
    simp [renderAnalysisResults, he, ht, hs, hj, hn, hl, bind, Except.bind, pure,
      Except.pure, hu]
  · simp [renderAnalysisResults, he, ht, bind, Except.bind, pure, Except.pure]

/-- C10, amended, at concrete responses: `{"niche": "plumber", "location": "Austin"}` is
rendered as a summary with both placeholders, `{"error": "boom"}` as the error message. -/
theorem renderAnalysisResults_placeholders_witness :
    (∃ niche location,
      getProp (obj [("niche", str "plumber"), ("location", str "Austin")]) "niche" =
        .ok niche ∧
      getProp (obj [("niche", str "plumber"), ("location", str "Austin")]) "location" =
        .ok location ∧
      renderAnalysisResults (obj [("niche", str "plumber"), ("location", str "Austin")])
        (App.init true false true) = .ok
          { App.init true false true with
            resultsContainer := analysisSummary niche location (str "N/A") (str "N/A") }) ∧
    renderAnalysisResults (obj [("error", str "boom")]) (App.init true false true) =
      .ok { App.init true false true with resultsContainer := analysisError (str "boom") } :=
  ⟨(renderAnalysisResults_placeholders
      (obj [("niche", str "plumber"), ("location", str "Austin")])
      (App.init true false true)).1 undefined rfl rfl rfl rfl,
    (renderAnalysisResults_placeholders (obj [("error", str "boom")])
      (App.init true false true)).2 (str "boom") rfl rfl⟩

/-! ## Editor -/

theorem lookup_assign_same (cur : List (String × JSValue)) (k : String) (v : JSValue) :
    lookup (assign cur k v) k = v := by
  induction cur with
  | nil => simp [assign, lookup]
  | cons kv rest ih =>
    obtain ⟨k1, w⟩ := kv
    by_cases h : k1 = k
    · simp [assign, lookup, h]
    · simp [assign, lookup, h, ih]

theorem lookup_assign_ne (cur : List (String × JSValue)) (k g : String) (v : JSValue)
    (hg : g ≠ k) : lookup (assign cur k v) g = lookup cur g := by
  induction cur with
  | nil => simp [assign, lookup, Ne.symm hg]
  | cons kv rest ih =>
    obtain ⟨k1, w⟩ := kv
    by_cases h : k1 = k
    · subst h
      simp [assign, lookup, Ne.symm hg]
    · by_cases h2 : k1 = g
      · subst h2
        simp [assign, lookup, h]
      · simp [assign, lookup, h, h2, ih]

theorem map_fst_assign (cur : List (String × JSValue)) (k : String) (v : JSValue)
    (hk : k ∈ cur.map Prod.fst) : (assign cur k v).map Prod.fst = cur.map Prod.fst := by
  induction cur with
  | nil => simp at hk
  | cons kv rest ih =>
    obtain ⟨k1, w⟩ := kv
    by_cases h : k1 = k
    · simp [assign, h]
    · have : k ∈ rest.map Prod.fst := by
        simp only [List.map_cons, List.mem_cons] at hk
        rcases hk with hk | hk
        · exact absurd hk.symm h
        · exact hk
      simp [assign, h, ih this]

theorem activeTab_names (names : List String) (a : String) (ha : a ∈ names) :
    activeTab (names.map (fun f => (⟨f, f == a⟩ : Tab))) = some ⟨a, true⟩ := by
  induction names with
  | nil => simp at ha
  | cons f rest ih =>
    by_cases h : f = a
    · simp [activeTab, h]
    · have : a ∈ rest := by
        rcases List.mem_cons.mp ha with h1 | h1
        · exact absurd h1.symm h
        · exact h1
      have ih2 := ih this
      have hb : (f == a) = false := by simpa using h
      simp only [activeTab] at ih2 ⊢
      simp [List.find?, hb, ih2]

theorem activate_names (names : List String) (a f : String) (b : Nat)
    (hnd : names.Nodup) (hb : names[b]? = some f) :
    activate b (names.map (fun x => (⟨x, x == a⟩ : Tab))) =
      names.map (fun x => (⟨x, x == f⟩ : Tab)) := by
  induction names generalizing b with
  | nil => simp at hb
  | cons g rest ih =>
    have hg : g ∉ rest := (List.nodup_cons.mp hnd).1
    cases b with
    | zero =>
      simp only [List.getElem?_cons_zero, Option.some.injEq] at hb
      subst hb
      simp only [List.map_cons, activate, List.map_map, beq_self_eq_true]
      congr 1
      apply List.map_congr_left
      intro x hx
      have : x ≠ g := fun h => hg (h ▸ hx)
      simp [this]
    | succ b =>
      simp only [List.getElem?_cons_succ] at hb
      have hf : f ∈ rest := List.getElem?_mem hb
      have hne : g ≠ f := fun h => hg (h ▸ hf)
      simp [activate, ih b (List.nodup_cons.mp hnd).2 hb, hne]

theorem openTabs_names (first : String) (rest : List String) (hnd : (first :: rest).Nodup) :
    openTabs (first :: rest) = (first :: rest).map (fun x => (⟨x, x == first⟩ : Tab)) := by
  have hg : first ∉ rest := (List.nodup_cons.mp hnd).1
  simp only [openTabs, List.map_cons, beq_self_eq_true]
  congr 1
  apply List.map_congr_left
  intro x hx
  have : x ≠ first := fun h => hg (h ▸ hx)
  simp [this]

theorem lookup_mem (entries : List (String × JSValue)) (f : String)
    (hf : f ∈ entries.map Prod.fst) : (f, lookup entries f) ∈ entries := by
  induction entries with
  | nil => simp at hf
  | cons kv rest ih =>
    obtain ⟨k, w⟩ := kv
    by_cases h : k = f
    · subst h
      simp [lookup]
    · have : f ∈ rest.map Prod.fst := by
        simp only [List.map_cons, List.mem_cons] at hf
        rcases hf with hf | hf
        · exact absurd hf.symm h
        · exact hf
      simp [lookup, h, ih this]

theorem normalizeNewlines_no_cr (afterCR : Bool) (l : List Char) :
    Char.ofNat 13 ∉ normalizeNewlines afterCR l := by
  induction l generalizing afterCR with
  | nil => simp [normalizeNewlines]
  | cons c rest ih =>
    unfold normalizeNewlines
    by_cases h1 : c = Char.ofNat 13
    · simp only [h1, if_true, List.mem_cons, not_or]
      exact ⟨by decide, ih true⟩
    · by_cases h2 : c = Char.ofNat 10 ∧ afterCR = true
      · simp only [h1, h2, if_false]
        simpa using ih false
      · simp only [h1, h2, if_false, List.mem_cons, not_or]
        exact ⟨fun h => h1 h.symm, ih false⟩

theorem normalizeNewlines_of_no_cr (l : List Char) (h : Char.ofNat 13 ∉ l) :
    normalizeNewlines false l = l := by
  induction l with
  | nil => rfl
  | cons c rest ih =>
    have h1 : c ≠ Char.ofNat 13 := fun e => h (by rw [e]; exact List.mem_cons_self _ _)
    have h2 : Char.ofNat 13 ∉ rest := fun e => h (List.mem_cons_of_mem _ e)
    unfold normalizeNewlines
    simp [h1, ih h2]

/-- Reading a text area whose raw value was itself read from a text area changes
nothing. -/
theorem textareaRead_idem (raw : String) :
    textareaRead (textareaRead raw) = textareaRead raw := by
  simp only [textareaRead, String.toList]
  rw [normalizeNewlines_of_no_cr _ (normalizeNewlines_no_cr false raw.data)]

theorem textareaValue_str (t : String) : textareaValue (str t) = t := by
  rfl

/-- What flushing the active tab does on a page that shows a desk editing `a`. -/
theorem flushActiveTab_eq (names : List String) (s : App) (cur : List (String × JSValue))
    (a : String) (hc : s.editorState.content = .files cur)
    (ht : s.editorTabs = names.map (fun g => (⟨g, g == a⟩ : Tab))) (ha : a ∈ names) :
    flushActiveTab s = .ok { s with editorState := { s.editorState with
      content := .files (assign cur a (str (textareaRead s.contentEditorTextarea))) } } := by
  simp [flushActiveTab, ht, activeTab_names names a ha, hc]

/-- What a click on the tab of `f` does on a page that shows a desk editing `a`. -/
theorem handleTabClick_eq (names : List String) (s : App) (cur : List (String × JSValue))
    (a f : String) (b : Nat) (hnd : names.Nodup)
    (hc : s.editorState.content = .files cur)
    (ht : s.editorTabs = names.map (fun g => (⟨g, g == a⟩ : Tab))) (ha : a ∈ names)
    (hb : names[b]? = some f) :
    handleTabClick b s =
      { s with
        editorState := { s.editorState with
          content := .files (assign cur a (str (textareaRead s.contentEditorTextarea))) },
        editorTabs := names.map (fun g => (⟨g, g == f⟩ : Tab)),
        contentEditorTextarea :=
          textareaValue
            (lookup (assign cur a (str (textareaRead s.contentEditorTextarea))) f) } := by
  have h1 : s.editorTabs[b]? = some ⟨f, f == a⟩ := by
    rw [ht, List.getElem?_map, hb]
    rfl
  have h2 := flushActiveTab_eq names s cur a hc ht ha
  simp only [handleTabClick, h1, h2]
  simp [ht, activate_names names a f b hnd hb]

theorem shows_open (s0 : App) (entries : List (String × JSValue))
    (hcontent : s0.editorState.content = .files entries) (hne : entries ≠ [])
    (hkeys : (entries.map Prod.fst).Nodup) :
    Shows entries (openContentEditor s0).1 (Desk.opened entries) := by
  obtain ⟨⟨first, w⟩, rest, rfl⟩ := List.exists_cons_of_ne_nil hne
  refine ⟨(first, w) :: rest, first, ?_, rfl, rfl, by simp, ?_, ?_, ?_, ?_, ?_, ?_⟩
  · simp [openContentEditor, hcontent]
  · have := openTabs_names first (rest.map Prod.fst) (by simpa using hkeys)
    simp only [List.map_cons] at this ⊢
    simp [openContentEditor, hcontent, this]
  · simp [openContentEditor, hcontent, Desk.opened]
  · intro f _
    rfl
  · intro f t h
    simp [Desk.opened] at h
  · intro f _
    rfl
  · intro f t _ h
    simp [Desk.opened] at h

theorem shows_step (entries : List (String × JSValue))
    (hnd : (entries.map Prod.fst).Nodup) (s : App) (d : Desk)
    (ev : EditorEvent) (h : Shows entries s d) :
    Shows entries (editorStep s ev) (Desk.step (entries.map Prod.fst) d ev) := by
  obtain ⟨cur, a, hc, hn, hact, ha, ht, htxt, hothers, hleft, hnever, hkept⟩ := h
  cases ev with
  | typed text =>
    refine ⟨cur, a, hc, hn, ?_, ha, ht, ?_, ?_, ?_, ?_, ?_⟩
    · simp [Desk.step, hact]
    · simp [Desk.step, hact, editorStep, typeText]
    · intro f hfa
      simp [Desk.step, hact, Function.update, hfa, hothers f hfa]
    · intro f t hf
      simp only [Desk.step, hact] at hf
      exact hleft f t hf
    · intro f hf
      simp only [Desk.step, hact] at hf
      exact hnever f hf
    · intro f t hfa hf
      simp only [Desk.step, hact] at hf
      simp [Desk.step, hact, Function.update, hfa, hkept f t hfa hf]
  | clicked b =>
    cases hb : (entries.map Prod.fst)[b]? with
    | none =>
      have h1 : s.editorTabs[b]? = none := by
        rw [ht, List.getElem?_map, hb]
        rfl
      have h2 : editorStep s (.clicked b) = s := by
        simp [editorStep, handleTabClick, h1]
      rw [h2]
      simp only [Desk.step, hb]
      exact ⟨cur, a, hc, hn, hact, ha, ht, htxt, hothers, hleft, hnever, hkept⟩
    | some f =>
      have hf : f ∈ entries.map Prod.fst := List.getElem?_mem hb
      have heq := handleTabClick_eq _ s cur a f b hnd hc ht ha hb
      simp only [editorStep, Desk.step, hb, hact, heq]
      refine ⟨assign cur a (str (textareaRead s.contentEditorTextarea)), f, rfl, ?_, rfl, hf,
        rfl, ?_, ?_, ?_, ?_, ?_⟩
      · rw [map_fst_assign cur a _ (hn ▸ ha), hn]
      · by_cases hfa : f = a
        · subst hfa
          simp only [lookup_assign_same, textareaValue_str, textareaRead_idem]
          exact htxt
        · simp [lookup_assign_ne cur a f _ hfa, hothers f hfa]
      · intro g hgf
        by_cases hga : g = a
        · subst hga
          simp only [lookup_assign_same, textareaValue_str, textareaRead_idem]
          exact htxt
        · simp [lookup_assign_ne cur a g _ hga, hothers g hga]
      · intro g t hg
        by_cases hga : g = a
        · subst hga
          simp only [Function.update_same, Option.some.injEq] at hg
          rw [lookup_assign_same, htxt, hg]
        · simp only [Function.update_noteq hga] at hg
          rw [lookup_assign_ne cur a g _ hga]
          exact hleft g t hg
      · intro g hg
        by_cases hga : g = a
        · subst hga
          simp at hg
        · simp only [Function.update_noteq hga] at hg
          rw [lookup_assign_ne cur a g _ hga]
          exact hnever g hg
      · intro g t hgf hg
        by_cases hga : g = a
        · subst hga
          simp only [Function.update_same, Option.some.injEq] at hg
          exact hg
        · simp only [Function.update_noteq hga] at hg
          exact hkept g t hga hg

theorem shows_run (entries : List (String × JSValue))
    (hnd : (entries.map Prod.fst).Nodup) (evs : List EditorEvent)
    (s : App) (d : Desk) (h : Shows entries s d) :
    Shows entries (editorRun evs s) (Desk.run (entries.map Prod.fst) evs d) := by
  induction evs generalizing s d with
  | nil => exact h
  | cons ev rest ih =>
    simp only [editorRun, Desk.run, List.foldl_cons]
    exact ih _ _ (shows_step entries hnd s d ev h)

/-- C8: take a draft whose content is an object with at least one file, open it with
`openContentEditor`, and let the user type and click tabs in any order. On the page `s`
reached, exactly one tab is active, the tab of a file `a`, and a click on any tab, of a
file `f` (which may be `a`):
* stores the text the text area gives (`contentEditorTextarea.value`) under `a` in
  `editorState.content` and leaves the entry of every other file as it was;
* then loads the entry of `f` of that updated content into the text area;
* makes the tab of `f` the only active one.
Consequently `s` shows the editor that keeps one text per file and never loses any: the
text area gives the text of `a`; the entry of every other file gives, in a text area, the
text of that file; the entry of every file the user has left is exactly the last text
the user left in the text area for it, which for a file not being edited is the text of
that file; the entry of a file never left is the one the draft was opened with; and once
the active tab is flushed (as every click and `handleFinalizeDeploy` do first) the entry
of `a` is the text of `a` as well. -/
theorem handleTabClick_keeps_edits (s0 : App) (entries : List (String × JSValue))
    (hcontent : s0.editorState.content = .files entries) (hne : entries ≠ [])
    (hkeys : (entries.map Prod.fst).Nodup) (evs : List EditorEvent) :
    let names := entries.map Prod.fst
    let s := editorRun evs (openContentEditor s0).1
    let d := Desk.run names evs (Desk.opened entries)
    ∃ cur a,
      s.editorState.content = .files cur ∧ cur.map Prod.fst = names ∧ a ∈ names ∧
      s.editorTabs = names.map (fun g => (⟨g, g == a⟩ : Tab)) ∧
      (∀ b f, names[b]? = some f →
        (handleTabClick b s).editorState.content =
          .files (assign cur a (str (textareaRead s.contentEditorTextarea))) ∧
        lookup (assign cur a (str (textareaRead s.contentEditorTextarea))) a =
          str (textareaRead s.contentEditorTextarea) ∧
        (∀ g, g ≠ a →
          lookup (assign cur a (str (textareaRead s.contentEditorTextarea))) g =
            lookup cur g) ∧
        (handleTabClick b s).contentEditorTextarea =
          textareaValue
            (lookup (assign cur a (str (textareaRead s.contentEditorTextarea))) f) ∧
        (handleTabClick b s).editorTabs = names.map (fun g => (⟨g, g == f⟩ : Tab))) ∧
      d.active = some a ∧
      textareaRead s.contentEditorTextarea = d.texts a ∧
      (∀ g, g ≠ a → textareaRead (textareaValue (lookup cur g)) = d.texts g) ∧
      (∀ g t, d.left g = some t → lookup cur g = str t) ∧
      (∀ g t, g ≠ a → d.left g = some t → t = d.texts g) ∧
      (∀ g, d.left g = none → lookup cur g = lookup entries g) ∧
      (∃ flushed cur1, flushActiveTab s = .ok flushed ∧
        flushed.editorState.content = .files cur1 ∧
        lookup cur1 a = str (d.texts a) ∧
        (∀ g, g ≠ a → lookup cur1 g = lookup cur g) ∧
        ∀ g, textareaRead (textareaValue (lookup cur1 g)) = d.texts g) := by
  intro names s d
  obtain ⟨cur, a, hc, hn, hact, ha, ht, htxt, hothers, hleft, hnever, hkept⟩ :=
    shows_run entries hkeys evs _ _ (shows_open s0 entries hcontent hne hkeys)
  refine ⟨cur, a, hc, hn, ha, ht, ?_, hact, htxt, hothers, hleft,
    fun g t hga hg => (hkept g t hga hg).symm, hnever, ?_⟩
  · intro b f hb
    rw [handleTabClick_eq names s cur a f b hkeys hc ht ha hb]
    exact ⟨rfl, lookup_assign_same _ _ _, fun g hg => lookup_assign_ne _ _ _ _ hg, rfl, rfl⟩
  · refine ⟨{ s with editorState := { s.editorState with
        content := .files (assign cur a (str (textareaRead s.contentEditorTextarea))) } },
      assign cur a (str (textareaRead s.contentEditorTextarea)), ?_, rfl, ?_,
      fun g hg => lookup_assign_ne _ _ _ _ hg, ?_⟩
    · exact flushActiveTab_eq names s cur a hc ht ha
    · rw [lookup_assign_same, htxt]
    · intro g
      by_cases hga : g = a
      · subst hga
        rw [lookup_assign_same, textareaValue_str, textareaRead_idem]
        exact htxt
      · rw [lookup_assign_ne _ _ _ _ hga]
        exact hothers g hga

/-- C8 on a draft with two files, the first holding a CRLF line break. Going to the
second tab without typing stores the first file as the text area gives it, with a plain
line feed. After the user retypes the first file, goes to the second, retypes it and
goes back, the text area holds the first text again and the draft holds, for each file
left, the text left there. -/
theorem handleTabClick_keeps_edits_witness :
    (editorRun [.clicked 1] (openContentEditor samplePage).1).editorState.content =
      .files [("index.html", str "line1\nline2"), ("about-us.html", str "<h1>About</h1>")] ∧
    (editorRun [.typed "a\r\nb", .clicked 1, .typed "<h1>Us</h1>", .clicked 0]
      (openContentEditor samplePage).1).contentEditorTextarea = "a\nb" ∧
    ∃ cur,
      (editorRun [.typed "a\r\nb", .clicked 1, .typed "<h1>Us</h1>", .clicked 0]
        (openContentEditor samplePage).1).editorState.content = .files cur ∧
      ∀ g t,
        (Desk.run (sampleDraft.map Prod.fst)
          [.typed "a\r\nb", .clicked 1, .typed "<h1>Us</h1>", .clicked 0]
          (Desk.opened sampleDraft)).left g = some t →
        lookup cur g = str t := by
  refine ⟨by rfl, by decide, ?_⟩
  obtain ⟨cur, a, hc, _, _, _, _, _, _, _, hleft, _⟩ :=
    handleTabClick_keeps_edits samplePage sampleDraft rfl (List.cons_ne_nil _ _) (by decide)
      [.typed "a\r\nb", .clicked 1, .typed "<h1>Us</h1>", .clicked 0]
  exact ⟨cur, hc, hleft⟩

end RankForge
